import Mathlib

/-!
Verification development for the `utils` image-optimizer repository.

Shallow embedding of `src/images_optimizer/multiple_images_optimizer.py` (the
batch variant) and `src/images_optimizer/optimizer.py` (the single-image
variant).  The size-targeting loop `optimize_to_target_size` has an identical
body in both source files and is embedded once.

Modelling conventions:
* Encoded byte sizes are natural numbers (bytes).  Python computes sizes in KB
  as `os.path.getsize(p) / 1024` (exact float division by a power of two), so a
  comparison `size_kb > K` for an integer constant `K` is exactly
  `bytes > K * 1024`; all comparisons below are stated over bytes this way.
* The Pillow encoder is abstracted as a pure function from (format, pixel data,
  quality) to an encoded byte size.  The pixel data of the working copy is
  determined by the current dimensions and mode, so an image is modelled by its
  dimensions and color mode; each run carries its own encoder function.
* Python's `int(old_width * RESIZE_FACTOR)` with `RESIZE_FACTOR = 0.8` equals
  `old_width * 4 / 5` in natural-number arithmetic for every realistic width
  (the double nearest to 0.8 exceeds 4/5 by 2^-54/5, so the truncated product
  agrees with floor(4*w/5) for all w < 2^50).
* The run additionally records a chronological log of encode and resize events;
  this log is ghost information used to state temporal properties and does not
  influence any computed value.
-/

/-- Color mode of a Pillow image, as far as the optimizer inspects it. -/
inductive Mode where
  | RGB
  | RGBA
  | L
deriving DecidableEq

/-- Target format: the source handles WEBP, AVIF and JPEG explicitly. -/
inductive Format where
  | WEBP
  | AVIF
  | JPEG
deriving DecidableEq

/-- The pixel data handed to the encoder: dimensions plus color mode. -/
structure Img where
  width : Nat
  height : Nat
  mode : Mode
deriving DecidableEq

/-- An encoder for a fixed format: pixel data and quality to encoded byte size. -/
abbrev EncFn := Img → Nat → Nat

/-- The encoder capability: format, pixel data, quality to encoded byte size. -/
abbrev Enc := Format → Img → Nat → Nat

/-- The module-level constants of both source files (identical values). -/
structure Config where
  TARGET_MIN_SIZE_KB : Nat
  TARGET_MAX_SIZE_KB : Nat
  MAX_SIZE_KB : Nat
  INITIAL_QUALITY : Nat
  MIN_QUALITY : Nat

/-- The constant values defined at module level in both source files:
`TARGET_MIN_SIZE_KB = 30`, `TARGET_MAX_SIZE_KB = 90`, `MAX_SIZE_KB = 100`,
`INITIAL_QUALITY = 80`, `MIN_QUALITY = 30`. -/
def defaultConfig : Config :=
  { TARGET_MIN_SIZE_KB := 30
    TARGET_MAX_SIZE_KB := 90
    MAX_SIZE_KB := 100
    INITIAL_QUALITY := 80
    MIN_QUALITY := 30 }

/-- `MAX_WORKERS = 4` (batch variant only). -/
def MAX_WORKERS : Nat := 4

/-- `max_resize_attempts = 5`, a local constant of `optimize_to_target_size`. -/
def max_resize_attempts : Nat := 5

/-- One entry of the ghost event log of an optimizer run: an encode attempt
(`current_img.save(..., quality=q)`) at given pixel data and quality, or a
resize step recording the quality at which it happened, the old pixel data and
the new pixel data. -/
inductive Event where
  | encode : Img → Nat → Event
  | resize : Nat → Img → Img → Event
deriving DecidableEq

/-- The mutable local state of `optimize_to_target_size`:
`current_img`, `quality`, `current_size` (in bytes here), `resize_needed`,
`resize_count`. -/
structure OptState where
  img : Img
  quality : Nat
  sizeBytes : Nat
  resizeNeeded : Bool
  resizeCount : Nat
deriving DecidableEq

/-- The downward phase of `optimize_to_target_size`: the
`while current_size > MAX_SIZE_KB` loop.  While the size is over the ceiling,
quality is reduced (by 10 when more than twice over the ceiling, else by 5,
clamped to `MIN_QUALITY`) and the image re-encoded; once quality is at the
floor, the image is resized by the 0.8 factor, quality is reset to
`initial_quality` and the resize counter incremented, up to
`max_resize_attempts` resizes, after which the loop gives up (`break`).
Returns the final state together with the list of events of this phase. -/
def downPhase (cfg : Config) (enc : EncFn) (initial_quality : Nat) (s : OptState) :
    OptState × List Event :=
  if _hsz : s.sizeBytes > cfg.MAX_SIZE_KB * 1024 then
    if hq : s.quality > cfg.MIN_QUALITY then
      let reduction : Nat := if s.sizeBytes > 2 * cfg.MAX_SIZE_KB * 1024 then 10 else 5
      let quality := max cfg.MIN_QUALITY (s.quality - reduction)
      let next : OptState :=
        { img := s.img
          quality := quality
          sizeBytes := enc s.img quality
          resizeNeeded := s.resizeNeeded
          resizeCount := s.resizeCount }
      let r := downPhase cfg enc initial_quality next
      (r.1, Event.encode s.img quality :: r.2)
    else
      if _hr : s.resizeCount ≥ max_resize_attempts then (s, [])
      else
        let new_img : Img :=
          { width := s.img.width * 4 / 5
            height := s.img.height * 4 / 5
            mode := s.img.mode }
        let next : OptState :=
          { img := new_img
            quality := initial_quality
            sizeBytes := enc new_img initial_quality
            resizeNeeded := true
            resizeCount := s.resizeCount + 1 }
        let r := downPhase cfg enc initial_quality next
        (r.1, Event.resize s.quality s.img new_img ::
              Event.encode new_img initial_quality :: r.2)
  else (s, [])
termination_by (max_resize_attempts - s.resizeCount, s.quality)
decreasing_by
· apply Prod.Lex.right
  refine max_lt hq ?_
  have h5 : (0:Nat) < if s.sizeBytes > 2 * cfg.MAX_SIZE_KB * 1024 then 10 else 5 := by
    split <;> omega
  exact Nat.sub_lt (Nat.lt_of_le_of_lt (Nat.zero_le _) hq) h5
· apply Prod.Lex.left
  simp only [max_resize_attempts] at *
  omega

/-- The upward phase of `optimize_to_target_size`: the
`while current_size < TARGET_MIN_SIZE_KB and quality < 98` loop.  Quality is
raised by 5 (clamped at 98) and the image re-encoded; if the new size exceeds
`MAX_SIZE_KB` the quality is lowered by 5 again, the image re-encoded once
more, and the loop exits (`break`); otherwise the new size is adopted and the
loop continues.  Returns the final state and this phase's events. -/
def upPhase (cfg : Config) (enc : EncFn) (s : OptState) : OptState × List Event :=
  if h : s.sizeBytes < cfg.TARGET_MIN_SIZE_KB * 1024 ∧ s.quality < 98 then
    let q1 := s.quality + 5
    let quality := if q1 > 98 then 98 else q1
    let new_size := enc s.img quality
    if new_size > cfg.MAX_SIZE_KB * 1024 then
      let q2 := quality - 5
      ({ s with quality := q2, sizeBytes := enc s.img q2 },
       [Event.encode s.img quality, Event.encode s.img q2])
    else
      let r := upPhase cfg enc { s with quality := quality, sizeBytes := new_size }
      (r.1, Event.encode s.img quality :: r.2)
  else (s, [])
termination_by 98 - s.quality
decreasing_by
  have h2 := h.2
  split <;> omega

/-- The result of one `optimize_to_target_size` call: the returned triple
`(current_size, quality, resize_needed)` plus the final dimensions of
`current_img` and the ghost event log. -/
structure OptRun where
  sizeBytes : Nat
  quality : Nat
  resized : Bool
  width : Nat
  height : Nat
  log : List Event
deriving DecidableEq

/-- The conversion at the top of `optimize_to_target_size`: the working copy
is converted from RGBA to RGB when the target format is JPEG, otherwise left
unchanged (dimensions are always preserved). -/
def flattenFor (format_name : Format) (img : Img) : Img :=
  if format_name = Format.JPEG ∧ img.mode = Mode.RGBA then
    { img with mode := Mode.RGB }
  else img

/-- `optimize_to_target_size(img, output_path, format_name, initial_quality)`,
identical in both source files.  It works on a copy of the image, flattens
RGBA to RGB when targeting JPEG, performs a seed encode at `initial_quality`,
runs the downward phase, and runs the upward phase only when the size is below
`TARGET_MIN_SIZE_KB` and no resize happened. -/
def optimize_to_target_size (cfg : Config) (enc : Enc) (img : Img)
    (format_name : Format) (initial_quality : Nat) : OptRun :=
  let current_img := flattenFor format_name img
  let s0 : OptState :=
    { img := current_img
      quality := initial_quality
      sizeBytes := enc format_name current_img initial_quality
      resizeNeeded := false
      resizeCount := 0 }
  let d := downPhase cfg (enc format_name) initial_quality s0
  let u :=
    if d.1.sizeBytes < cfg.TARGET_MIN_SIZE_KB * 1024 ∧ d.1.resizeNeeded = false then
      upPhase cfg (enc format_name) d.1
    else (d.1, [])
  { sizeBytes := u.1.sizeBytes
    quality := u.1.quality
    resized := u.1.resizeNeeded
    width := u.1.img.width
    height := u.1.img.height
    log := Event.encode current_img initial_quality :: (d.2 ++ u.2) }

/-- Number of resize events in a log. -/
def countResizes (l : List Event) : Nat :=
  l.countP fun e =>
    match e with
    | Event.resize _ _ _ => true
    | _ => false

/-- Number of encode events in a log. -/
def countEncodes (l : List Event) : Nat :=
  l.countP fun e =>
    match e with
    | Event.encode _ _ => true
    | _ => false

/-- Checker for the temporal property "quality reduction is exhausted before
any resize": scanning the log while tracking the quality `lastQ` of the most
recent encode, every resize event must occur when both the recorded quality
and the most recent encode's quality equal `minQ`. -/
def resizesAfterFloor (minQ : Nat) : Nat → List Event → Bool
  | _, [] => true
  | _, Event.encode _ q :: rest => resizesAfterFloor minQ q rest
  | lastQ, Event.resize q _ _ :: rest =>
      decide (lastQ = minQ) && decide (q = minQ) && resizesAfterFloor minQ lastQ rest

/-- The image produced by one resize step: both dimensions scaled by the 0.8
factor with integer truncation (`int(d * 0.8) = d * 4 / 5`). -/
def scaleImg (i : Img) : Img :=
  { width := i.width * 4 / 5, height := i.height * 4 / 5, mode := i.mode }

/-- Checker for the resize-chain property: tracking the current working image
`cur`, every encode event must use exactly `cur`, and every resize event must
go from exactly `cur` to `scaleImg cur` (never recomputed from the original)
and be immediately followed by an encode of the new image at the initial
quality `iq` (the post-resize quality reset). -/
def resizeChainOk (iq : Nat) : Img → List Event → Bool
  | _, [] => true
  | cur, Event.encode i _ :: rest => decide (i = cur) && resizeChainOk iq cur rest
  | cur, Event.resize _ oldI newI :: rest =>
      decide (oldI = cur) && decide (newI = scaleImg cur) &&
      (match rest with
       | Event.encode i2 q2 :: _ => decide (i2 = newI) && decide (q2 = iq)
       | _ => false) &&
      resizeChainOk iq newI rest

/-- An EXIF mapping: tag name to value, as built by `preserve_metadata`. -/
abbrev ExifData := List (String × String)

/-- A source image file: path stem, pixel data, optional EXIF mapping, and
byte size on disk (`os.path.getsize(input_path)`). -/
structure ImageFile where
  stem : String
  img : Img
  exif : Option ExifData
  sizeBytes : Nat
deriving DecidableEq

/-- `preserve_metadata(img)`: extracts the EXIF mapping when present
(identical helper in both source files; the extraction itself is an external
collaborator, abstracted by the `exif` field). -/
def preserve_metadata (file : ImageFile) : Option ExifData :=
  file.exif

/-- The observable output directory state: which output file
`<output_dir>/<stem>.<format>` exists, per stem and format
(`get_output_path(...).exists()`). -/
abbrev FS := String → Format → Bool

/-- Savings percentage `((original_size - new_size) / original_size) * 100`,
with the two KB sizes `bytes / 1024`; Python float arithmetic is modelled by
exact rational arithmetic. -/
def savingsPercent (originalBytes outBytes : Nat) : Rat :=
  (((originalBytes : Rat) / 1024 - (outBytes : Rat) / 1024) /
      ((originalBytes : Rat) / 1024)) * 100

/-- The `status` field of a batch job's result dictionary. -/
inductive JobStatus where
  | success
  | skipped
  | error
deriving DecidableEq

/-- The per-format part of a result dictionary: the optimizer run (size,
quality, resized flag, dimensions, log) together with the computed savings. -/
structure FmtOut where
  run : OptRun
  savings : Rat
deriving DecidableEq

/-- A batch job's result dictionary, reduced to the fields the claims are
about. -/
structure JobOutcome where
  status : JobStatus
  webp : Option FmtOut
  avif : Option FmtOut
deriving DecidableEq

/-- Total number of encoder invocations recorded in a job's outcome. -/
def encodeCount (j : JobOutcome) : Nat :=
  (match j.webp with
   | some f => countEncodes f.run.log
   | none => 0) +
  (match j.avif with
   | some f => countEncodes f.run.log
   | none => 0)

namespace Batch

/-- `get_optimal_workers(format_name)` of the batch variant. -/
def get_optimal_workers (format_name : Format) : Nat :=
  if format_name = Format.AVIF then max 1 (min 2 (MAX_WORKERS / 2))
  else MAX_WORKERS

/-- `get_initial_quality(format_name, original_size)` of the batch variant;
`original_size` is held in bytes, `original_size > 500` (KB) is
`bytes > 500 * 1024`. -/
def get_initial_quality (cfg : Config) (format_name : Format)
    (original_sizeBytes : Nat) : Nat :=
  if format_name = Format.AVIF then
    if original_sizeBytes > 500 * 1024 then
      max cfg.MIN_QUALITY (cfg.INITIAL_QUALITY - 20)
    else
      max cfg.MIN_QUALITY (cfg.INITIAL_QUALITY - 15)
  else
    if original_sizeBytes > 500 * 1024 then
      max cfg.MIN_QUALITY (cfg.INITIAL_QUALITY - 10)
    else cfg.INITIAL_QUALITY

/-- The worker count actually used by `process_batch`:
`get_optimal_workers("AVIF" if format_decision == 2 else "WEBP")`.
The `max_workers` parameter of `process_batch` (fed from the `--workers`
command-line override) is accepted but never read. -/
def process_batch_workers (format_decision : Int) (max_workers : Nat) : Nat :=
  get_optimal_workers (if format_decision = 2 then Format.AVIF else Format.WEBP)

/-- `optimize_image(input_path)` of the batch variant, for a fixed
`format_decision`: first the skip check (`webp_path.exists() and
avif_path.exists()`), then EXIF extraction, then per-decision optimization;
an unrecognized decision yields the per-job `"Invalid format decision"` error
result of the `case _` branch. -/
def optimize_image (cfg : Config) (format_decision : Int) (fs : FS) (enc : Enc)
    (file : ImageFile) : JobOutcome :=
  if fs file.stem Format.WEBP && fs file.stem Format.AVIF then
    { status := JobStatus.skipped, webp := none, avif := none }
  else
    let _exif_data := preserve_metadata file
    let original_size := file.sizeBytes
    match format_decision with
    | 1 =>
        let initial_quality := get_initial_quality cfg Format.WEBP original_size
        let w := optimize_to_target_size cfg enc file.img Format.WEBP initial_quality
        { status := JobStatus.success
          webp := some { run := w, savings := savingsPercent original_size w.sizeBytes }
          avif := none }
    | 2 =>
        let initial_quality := get_initial_quality cfg Format.AVIF original_size
        let a := optimize_to_target_size cfg enc file.img Format.AVIF initial_quality
        { status := JobStatus.success
          webp := none
          avif := some { run := a, savings := savingsPercent original_size a.sizeBytes } }
    | 3 =>
        let webp_initial_quality := get_initial_quality cfg Format.WEBP original_size
        let avif_initial_quality := get_initial_quality cfg Format.AVIF original_size
        let w := optimize_to_target_size cfg enc file.img Format.WEBP webp_initial_quality
        let a := optimize_to_target_size cfg enc file.img Format.AVIF avif_initial_quality
        { status := JobStatus.success
          webp := some { run := w, savings := savingsPercent original_size w.sizeBytes }
          avif := some { run := a, savings := savingsPercent original_size a.sizeBytes } }
    | _ => { status := JobStatus.error, webp := none, avif := none }

/-- The output files a job leaves on disk: a skipped job writes nothing; a
processed job writes, via `optimize_to_target_size`'s saves, the output file
of each format its decision branch encodes (an unrecognized decision writes
nothing, since the `case _` branch never encodes). -/
def write_outputs (format_decision : Int) (skippedJob : Bool) (fs : FS)
    (stem : String) : FS :=
  if skippedJob then fs
  else fun s f =>
    fs s f ||
      (decide (s = stem) &&
        ((decide (format_decision = 1) && decide (f = Format.WEBP)) ||
         (decide (format_decision = 2) && decide (f = Format.AVIF)) ||
         (decide (format_decision = 3) &&
            (decide (f = Format.WEBP) || decide (f = Format.AVIF)))))

/-- The accumulating state of `process_batch`: the `results` dictionary's
counters and details, plus the output-directory state. -/
structure BatchState where
  successful : Nat
  skipped : Nat
  failed : Nat
  details : List JobOutcome
  fs : FS

/-- One result-draining step of `process_batch`: the finished job's status is
counted, its result dictionary appended to `details`, and the output files it
wrote recorded in the directory state. -/
def jobStep (format_decision : Int) (r : JobOutcome) (stem : String)
    (st : BatchState) : BatchState :=
  { successful := st.successful + (if r.status = JobStatus.success then 1 else 0)
    skipped := st.skipped + (if r.status = JobStatus.skipped then 1 else 0)
    failed := st.failed + (if r.status = JobStatus.error then 1 else 0)
    details := st.details ++ [r]
    fs := write_outputs format_decision (r.status == JobStatus.skipped) st.fs stem }

/-- The job-processing loop of `process_batch`: each job is run against the
current directory state, its status counted, its result appended, and its
output files recorded.  (The thread pool is modelled sequentially; jobs only
touch their own stem's outputs, and the counters are accumulated at a single
serialization point in the source as well.) -/
def runJobs (cfg : Config) (format_decision : Int) (enc : Enc) :
    List ImageFile → BatchState → BatchState
  | [], st => st
  | file :: rest, st =>
      runJobs cfg format_decision enc rest
        (jobStep format_decision (optimize_image cfg format_decision st.fs enc file)
          file.stem st)

/-- `process_batch(image_files, max_workers)`: runs every job and accumulates
the counters (all counters start at 0). -/
def process_batch (cfg : Config) (format_decision : Int) (enc : Enc)
    (files : List ImageFile) (fs0 : FS) : BatchState :=
  runJobs cfg format_decision enc files
    { successful := 0, skipped := 0, failed := 0, details := [], fs := fs0 }

/-- The `main()` of the batch variant, reduced to its control flow: with no
discovered images it returns exit code 1 before any job starts; otherwise it
runs the whole batch and returns 0 exactly when no job failed. -/
def batch_main (cfg : Config) (format_decision : Int) (enc : Enc)
    (files : List ImageFile) (fs0 : FS) : Int × Option BatchState :=
  if files.isEmpty then (1, none)
  else
    let st := process_batch cfg format_decision enc files fs0
    ((if st.failed = 0 then 0 else 1), some st)

/-- Modelled from the spec: "output files for *all* requested formats already
exist at the conventional output path" — the requested formats of decision 1
are WEBP only, of decision 2 AVIF only, of decision 3 both. -/
def allRequestedExist (format_decision : Int) (fs : FS) (stem : String) : Bool :=
  match format_decision with
  | 1 => fs stem Format.WEBP
  | 2 => fs stem Format.AVIF
  | 3 => fs stem Format.WEBP && fs stem Format.AVIF
  | _ => false

/-- Modelled from the spec: "effective worker count is
`min(requestedWorkers, formatSpecificCap)`; the cap is halved (minimum 1)
when AVIF is among the requested formats". -/
def spec_effective_workers (format_decision : Int) (requestedWorkers : Nat) : Nat :=
  let cap :=
    if format_decision = 2 ∨ format_decision = 3 then max 1 (MAX_WORKERS / 2)
    else MAX_WORKERS
  min requestedWorkers cap

end Batch

/-- Modelled from the spec (§4.1 Initial-Quality Policy): baseline 80; for
AVIF subtract 20 when the original exceeds 500 KB else 15, clamped to
MIN_QUALITY = 30; otherwise subtract 10 when the original exceeds 500 KB,
else no adjustment. -/
def spec_initial_quality (format_name : Format) (original_sizeBytes : Nat) : Nat :=
  if format_name = Format.AVIF then
    max 30 (if original_sizeBytes > 500 * 1024 then 80 - 20 else 80 - 15)
  else
    if original_sizeBytes > 500 * 1024 then 80 - 10 else 80

namespace Single

/-- The initial-quality adjustment inlined in `optimize_image` of the
single-image variant: `INITIAL_QUALITY`, lowered by 10 (clamped to
`MIN_QUALITY`) when the original exceeds 500 KB — the same value is then used
for both the WEBP and the AVIF encode. -/
def initial_quality_of (cfg : Config) (original_sizeBytes : Nat) : Nat :=
  if original_sizeBytes > 500 * 1024 then
    max cfg.MIN_QUALITY (cfg.INITIAL_QUALITY - 10)
  else cfg.INITIAL_QUALITY

/-- The single-image variant's result dictionary (no status field; the
function either returns this dictionary or None on an exception). -/
structure SingleResult where
  webp : FmtOut
  avif : FmtOut
deriving DecidableEq

/-- `optimize_image(input_path)` of the single-image variant: EXIF
extraction, the size-based initial-quality adjustment, then one
`optimize_to_target_size` call for WEBP and one for AVIF, both with the same
`initial_quality`. -/
def optimize_image (cfg : Config) (enc : Enc) (file : ImageFile) : SingleResult :=
  let _exif_data := preserve_metadata file
  let original_size := file.sizeBytes
  let initial_quality := initial_quality_of cfg original_size
  let w := optimize_to_target_size cfg enc file.img Format.WEBP initial_quality
  let a := optimize_to_target_size cfg enc file.img Format.AVIF initial_quality
  { webp := { run := w, savings := savingsPercent original_size w.sizeBytes }
    avif := { run := a, savings := savingsPercent original_size a.sizeBytes } }

end Single

/-! Concrete fixtures used by counterexamples and witnesses below. -/

/-- An encoder producing 50 KB (51200 bytes) for every encode. -/
def constEnc : Enc := fun _ _ _ => 51200

/-- An encoder producing 300 KB for every encode: the downward phase then
exhausts quality reduction and all five resize attempts. -/
def bigEnc : Enc := fun _ _ _ => 307200

/-- An encoder producing 20 KB below quality 98 and 150 KB at quality 98 and
above: the upward phase climbs until the clamped step to 98 overshoots. -/
def upEnc : Enc := fun _ _ q => if 98 ≤ q then 153600 else 20480

/-- Single-format version of `upEnc`. -/
def upEncFn : EncFn := fun _ q => if 98 ≤ q then 153600 else 20480

/-- An optimizer state at quality 95 with a 20 KB encode, about to take a
clamped upward step. -/
def s95 : OptState :=
  { img := { width := 100, height := 100, mode := Mode.RGB }
    quality := 95
    sizeBytes := 20480
    resizeNeeded := false
    resizeCount := 0 }

/-- A 400 KB source image file. -/
def fileA : ImageFile :=
  { stem := "a"
    img := { width := 100, height := 100, mode := Mode.RGB }
    exif := none
    sizeBytes := 409600 }

/-- A 600 KB source image file (above the 500 KB threshold). -/
def file600 : ImageFile :=
  { stem := "b"
    img := { width := 200, height := 200, mode := Mode.RGB }
    exif := none
    sizeBytes := 614400 }

/-- An output directory with no output files. -/
def emptyFS : FS := fun _ _ => false

/-- An output directory in which every output file exists. -/
def fullFS : FS := fun _ _ => true

@[simp] theorem resizesAfterFloor_nil (minQ lastQ : Nat) :
    resizesAfterFloor minQ lastQ [] = true := rfl

@[simp] theorem resizesAfterFloor_encode (minQ lastQ q : Nat) (i : Img) (rest : List Event) :
    resizesAfterFloor minQ lastQ (Event.encode i q :: rest) = resizesAfterFloor minQ q rest := rfl

@[simp] theorem resizesAfterFloor_resize (minQ lastQ q : Nat) (a b : Img) (rest : List Event) :
    resizesAfterFloor minQ lastQ (Event.resize q a b :: rest) =
      (decide (lastQ = minQ) && decide (q = minQ) && resizesAfterFloor minQ lastQ rest) := rfl

@[simp] theorem resizeChainOk_nil (iq : Nat) (cur : Img) :
    resizeChainOk iq cur [] = true := rfl

@[simp] theorem resizeChainOk_encode (iq q : Nat) (cur i : Img) (rest : List Event) :
    resizeChainOk iq cur (Event.encode i q :: rest) =
      (decide (i = cur) && resizeChainOk iq cur rest) := rfl

@[simp] theorem resizeChainOk_resize (iq q : Nat) (cur oldI newI : Img) (rest : List Event) :
    resizeChainOk iq cur (Event.resize q oldI newI :: rest) =
      (decide (oldI = cur) && decide (newI = scaleImg cur) &&
        (match rest with
         | Event.encode i2 q2 :: _ => decide (i2 = newI) && decide (q2 = iq)
         | _ => false) &&
        resizeChainOk iq newI rest) := rfl

theorem upPhase_countResizes (cfg : Config) (enc : EncFn) :
    ∀ s : OptState, countResizes (upPhase cfg enc s).2 = 0 := by
  intro s
  induction s using upPhase.induct cfg enc with
  | case1 x hw q1 quality new_size hov =>
      unfold_let q1 quality new_size at hov
      simp only [dite_eq_ite] at hov
      rw [upPhase, dif_pos hw]
      dsimp only
      rw [if_pos hov]
      simp [countResizes]
  | case2 x hw q1 quality new_size hov ih =>
      unfold_let q1 quality new_size at hov ih
      simp only [dite_eq_ite] at hov ih
      rw [upPhase, dif_pos hw]
      dsimp only
      rw [if_neg hov]
      simpa [countResizes] using ih
  | case3 x hw =>
      rw [upPhase, dif_neg hw]
      simp [countResizes]

theorem upPhase_floor (cfg : Config) (enc : EncFn) (minQ : Nat) :
    ∀ (s : OptState) (lastQ : Nat),
      resizesAfterFloor minQ lastQ (upPhase cfg enc s).2 = true := by
  intro s
  induction s using upPhase.induct cfg enc with
  | case1 x hw q1 quality new_size hov =>
      intro lastQ
      unfold_let q1 quality new_size at hov
      simp only [dite_eq_ite] at hov
      rw [upPhase, dif_pos hw]
      dsimp only
      rw [if_pos hov]
      simp
  | case2 x hw q1 quality new_size hov ih =>
      intro lastQ
      unfold_let q1 quality new_size at hov ih
      simp only [dite_eq_ite] at hov ih
      rw [upPhase, dif_pos hw]
      dsimp only
      rw [if_neg hov]
      simpa using ih _
  | case3 x hw =>
      intro lastQ
      rw [upPhase, dif_neg hw]
      simp

theorem upPhase_img (cfg : Config) (enc : EncFn) :
    ∀ s : OptState, (upPhase cfg enc s).1.img = s.img := by
  intro s
  induction s using upPhase.induct cfg enc with
  | case1 x hw q1 quality new_size hov =>
      unfold_let q1 quality new_size at hov
      simp only [dite_eq_ite] at hov
      rw [upPhase, dif_pos hw]
      dsimp only
      rw [if_pos hov]
  | case2 x hw q1 quality new_size hov ih =>
      unfold_let q1 quality new_size at hov ih
      simp only [dite_eq_ite] at hov ih
      rw [upPhase, dif_pos hw]
      dsimp only
      rw [if_neg hov]
      simpa using ih
  | case3 x hw =>
      rw [upPhase, dif_neg hw]

theorem upPhase_resizeNeeded (cfg : Config) (enc : EncFn) :
    ∀ s : OptState, (upPhase cfg enc s).1.resizeNeeded = s.resizeNeeded := by
  intro s
  induction s using upPhase.induct cfg enc with
  | case1 x hw q1 quality new_size hov =>
      unfold_let q1 quality new_size at hov
      simp only [dite_eq_ite] at hov
      rw [upPhase, dif_pos hw]
      dsimp only
      rw [if_pos hov]
  | case2 x hw q1 quality new_size hov ih =>
      unfold_let q1 quality new_size at hov ih
      simp only [dite_eq_ite] at hov ih
      rw [upPhase, dif_pos hw]
      dsimp only
      rw [if_neg hov]
      simpa using ih
  | case3 x hw =>
      rw [upPhase, dif_neg hw]

theorem upPhase_chainOk (cfg : Config) (enc : EncFn) (iq : Nat) :
    ∀ s : OptState, resizeChainOk iq s.img (upPhase cfg enc s).2 = true := by
  intro s
  induction s using upPhase.induct cfg enc with
  | case1 x hw q1 quality new_size hov =>
      unfold_let q1 quality new_size at hov
      simp only [dite_eq_ite] at hov
      rw [upPhase, dif_pos hw]
      dsimp only
      rw [if_pos hov]
      simp
  | case2 x hw q1 quality new_size hov ih =>
      unfold_let q1 quality new_size at hov ih
      simp only [dite_eq_ite] at hov ih
      rw [upPhase, dif_pos hw]
      dsimp only
      rw [if_neg hov]
      simpa using ih
  | case3 x hw =>
      rw [upPhase, dif_neg hw]
      simp

theorem upPhase_qual (cfg : Config) (enc : EncFn) :
    ∀ s : OptState, 30 ≤ s.quality → s.quality ≤ 98 →
      (∀ (i : Img) (q : Nat), Event.encode i q ∈ (upPhase cfg enc s).2 → 30 ≤ q ∧ q ≤ 98)
      ∧ 30 ≤ (upPhase cfg enc s).1.quality ∧ (upPhase cfg enc s).1.quality ≤ 98 := by
  intro s
  induction s using upPhase.induct cfg enc with
  | case1 x hw q1 quality new_size hov =>
      intro hlo hhi
      unfold_let q1 quality new_size at hov
      simp only [dite_eq_ite] at hov
      rw [upPhase, dif_pos hw]
      dsimp only
      rw [if_pos hov]
      refine ⟨?_, ?_, ?_⟩
      · intro i q hmem
        simp only [List.mem_cons, List.mem_singleton] at hmem
        rcases hmem with h | h | h
        · rcases Event.encode.inj h with ⟨-, rfl⟩
          constructor <;> [skip; skip] <;> split <;> omega
        · rcases Event.encode.inj h with ⟨-, rfl⟩
          constructor <;> [skip; skip] <;> split <;> omega
        · cases h
      · dsimp only
        split <;> omega
      · dsimp only
        split <;> omega
  | case2 x hw q1 quality new_size hov ih =>
      intro hlo hhi
      unfold_let q1 quality new_size at hov ih
      simp only [dite_eq_ite] at hov ih
      rw [upPhase, dif_pos hw]
      dsimp only
      rw [if_neg hov]
      have hq2lo : 30 ≤ (if x.quality + 5 > 98 then 98 else x.quality + 5) := by split <;> omega
      have hq2hi : (if x.quality + 5 > 98 then 98 else x.quality + 5) ≤ 98 := by split <;> omega
      obtain ⟨ihev, ihlo, ihhi⟩ := ih hq2lo hq2hi
      refine ⟨?_, ihlo, ihhi⟩
      intro i q hmem
      simp only [List.mem_cons] at hmem
      rcases hmem with h | h
      · rcases Event.encode.inj h with ⟨-, rfl⟩
        exact ⟨hq2lo, hq2hi⟩
      · exact ihev i q h
  | case3 x hw =>
      intro hlo hhi
      rw [upPhase, dif_neg hw]
      exact ⟨fun i q h => absurd h (List.not_mem_nil _), hlo, hhi⟩

theorem downPhase_floor (cfg : Config) (enc : EncFn) (iq : Nat) (hiq : cfg.MIN_QUALITY ≤ iq) :
    ∀ s : OptState, cfg.MIN_QUALITY ≤ s.quality →
      ∀ tail : List Event,
        resizesAfterFloor cfg.MIN_QUALITY (downPhase cfg enc iq s).1.quality tail = true →
        resizesAfterFloor cfg.MIN_QUALITY s.quality ((downPhase cfg enc iq s).2 ++ tail) = true := by
  intro s
  induction s using downPhase.induct cfg enc iq with
  | case1 x hsz hq reduction quality next ih =>
      intro hxq tail hcont
      unfold_let reduction quality next at ih
      simp only [dite_eq_ite] at ih
      rw [downPhase, dif_pos hsz, dif_pos hq] at hcont ⊢
      dsimp only at hcont ⊢
      simp only [List.cons_append, resizesAfterFloor_encode]
      exact ih (le_max_left _ _) tail hcont
  | case2 x hsz hnq hr =>
      intro hxq tail hcont
      rw [downPhase, dif_pos hsz, dif_neg hnq, dif_pos hr] at hcont ⊢
      dsimp only at hcont ⊢
      simpa using hcont
  | case3 x hsz hnq hnr new_img next ih =>
      intro hxq tail hcont
      unfold_let new_img next at ih
      simp only [dite_eq_ite] at ih
      rw [downPhase, dif_pos hsz, dif_neg hnq, dif_neg hnr] at hcont ⊢
      dsimp only at hcont ⊢
      have heq : x.quality = cfg.MIN_QUALITY := by omega
      simp only [List.cons_append, resizesAfterFloor_resize, resizesAfterFloor_encode, heq]
      simp only [decide_eq_true_eq, Bool.and_eq_true, and_self, true_and]
      exact ih hiq tail hcont
  | case4 x hns =>
      intro hxq tail hcont
      rw [downPhase, dif_neg hns] at hcont ⊢
      dsimp only at hcont ⊢
      simpa using hcont

theorem downPhase_qual (cfg : Config) (enc : EncFn) (iq : Nat)
    (hiq1 : cfg.MIN_QUALITY ≤ iq) (hiq2 : iq ≤ 98) :
    ∀ s : OptState, cfg.MIN_QUALITY ≤ s.quality → s.quality ≤ 98 →
      (∀ (i : Img) (q : Nat), Event.encode i q ∈ (downPhase cfg enc iq s).2 →
          cfg.MIN_QUALITY ≤ q ∧ q ≤ 98)
      ∧ cfg.MIN_QUALITY ≤ (downPhase cfg enc iq s).1.quality
      ∧ (downPhase cfg enc iq s).1.quality ≤ 98 := by
  intro s
  induction s using downPhase.induct cfg enc iq with
  | case1 x hsz hq reduction quality next ih =>
      intro hlo hhi
      unfold_let reduction quality next at ih
      simp only [dite_eq_ite] at ih
      rw [downPhase, dif_pos hsz, dif_pos hq]
      dsimp only
      have hqlo : cfg.MIN_QUALITY ≤
          max cfg.MIN_QUALITY (x.quality - if x.sizeBytes > 2 * cfg.MAX_SIZE_KB * 1024 then 10 else 5) :=
        le_max_left _ _
      have hqhi :
          max cfg.MIN_QUALITY (x.quality - if x.sizeBytes > 2 * cfg.MAX_SIZE_KB * 1024 then 10 else 5) ≤ 98 :=
        max_le (le_trans hiq1 hiq2) (by omega)
      obtain ⟨ihev, ihlo, ihhi⟩ := ih hqlo hqhi
      refine ⟨?_, ihlo, ihhi⟩
      intro i q hmem
      simp only [List.mem_cons] at hmem
      rcases hmem with h | h
      · rcases Event.encode.inj h with ⟨-, rfl⟩
        exact ⟨hqlo, hqhi⟩
      · exact ihev i q h
  | case2 x hsz hnq hr =>
      intro hlo hhi
      rw [downPhase, dif_pos hsz, dif_neg hnq, dif_pos hr]
      dsimp only
      exact ⟨fun i q h => absurd h (List.not_mem_nil _), hlo, hhi⟩
  | case3 x hsz hnq hnr new_img next ih =>
      intro hlo hhi
      unfold_let new_img next at ih
      simp only [dite_eq_ite] at ih
      rw [downPhase, dif_pos hsz, dif_neg hnq, dif_neg hnr]
      dsimp only
      obtain ⟨ihev, ihlo, ihhi⟩ := ih hiq1 hiq2
      refine ⟨?_, ihlo, ihhi⟩
      intro i q hmem
      simp only [List.mem_cons] at hmem
      rcases hmem with h | h | h
      · cases h
      · rcases Event.encode.inj h with ⟨-, rfl⟩
        exact ⟨hiq1, hiq2⟩
      · exact ihev i q h
  | case4 x hns =>
      intro hlo hhi
      rw [downPhase, dif_neg hns]
      dsimp only
      exact ⟨fun i q h => absurd h (List.not_mem_nil _), hlo, hhi⟩

theorem downPhase_chainOk (cfg : Config) (enc : EncFn) (iq : Nat) :
    ∀ (s : OptState) (tail : List Event),
      resizeChainOk iq (downPhase cfg enc iq s).1.img tail = true →
      resizeChainOk iq s.img ((downPhase cfg enc iq s).2 ++ tail) = true := by
  intro s
  induction s using downPhase.induct cfg enc iq with
  | case1 x hsz hq reduction quality next ih =>
      intro tail hcont
      unfold_let reduction quality next at ih
      simp only [dite_eq_ite] at ih
      rw [downPhase, dif_pos hsz, dif_pos hq] at hcont ⊢
      dsimp only at hcont ⊢
      simp only [List.cons_append, resizeChainOk_encode]
      simp [ih tail hcont]
  | case2 x hsz hnq hr =>
      intro tail hcont
      rw [downPhase, dif_pos hsz, dif_neg hnq, dif_pos hr] at hcont ⊢
      dsimp only at hcont ⊢
      simpa using hcont
  | case3 x hsz hnq hnr new_img next ih =>
      intro tail hcont
      unfold_let new_img next at ih
      simp only [dite_eq_ite] at ih
      rw [downPhase, dif_pos hsz, dif_neg hnq, dif_neg hnr] at hcont ⊢
      dsimp only at hcont ⊢
      simp only [List.cons_append, resizeChainOk_resize, resizeChainOk_encode]
      simp [scaleImg, ih tail hcont]
  | case4 x hns =>
      intro tail hcont
      rw [downPhase, dif_neg hns] at hcont ⊢
      dsimp only at hcont ⊢
      simpa using hcont

theorem downPhase_countResizes (cfg : Config) (enc : EncFn) (iq : Nat) :
    ∀ s : OptState,
      countResizes (downPhase cfg enc iq s).2 ≤ max_resize_attempts - s.resizeCount := by
  intro s
  induction s using downPhase.induct cfg enc iq with
  | case1 x hsz hq reduction quality next ih =>
      unfold_let reduction quality next at ih
      simp only [dite_eq_ite] at ih
      rw [downPhase, dif_pos hsz, dif_pos hq]
      dsimp only
      simpa [countResizes, List.countP_cons] using ih
  | case2 x hsz hnq hr =>
      rw [downPhase, dif_pos hsz, dif_neg hnq, dif_pos hr]
      simp [countResizes]
  | case3 x hsz hnq hnr new_img next ih =>
      unfold_let new_img next at ih
      simp only [dite_eq_ite] at ih
      rw [downPhase, dif_pos hsz, dif_neg hnq, dif_neg hnr]
      dsimp only
      simp [countResizes, List.countP_cons] at ih ⊢
      simp only [max_resize_attempts] at *
      omega
  | case4 x hns =>
      rw [downPhase, dif_neg hns]
      simp [countResizes]

@[simp] theorem countResizes_nil : countResizes [] = 0 := rfl

@[simp] theorem countResizes_cons_encode (i : Img) (q : Nat) (l : List Event) :
    countResizes (Event.encode i q :: l) = countResizes l := by
  simp [countResizes, List.countP_cons]

@[simp] theorem countResizes_cons_resize (q : Nat) (a b : Img) (l : List Event) :
    countResizes (Event.resize q a b :: l) = countResizes l + 1 := by
  simp [countResizes, List.countP_cons]

@[simp] theorem countResizes_append (l1 l2 : List Event) :
    countResizes (l1 ++ l2) = countResizes l1 + countResizes l2 := by
  simp [countResizes, List.countP_append]

theorem downPhase_congr (cfg cfg' : Config) (enc : EncFn) (iq : Nat)
    (hMAX : cfg.MAX_SIZE_KB = cfg'.MAX_SIZE_KB)
    (hMIN : cfg.MIN_QUALITY = cfg'.MIN_QUALITY) :
    ∀ s : OptState, downPhase cfg enc iq s = downPhase cfg' enc iq s := by
  intro s
  induction s using downPhase.induct cfg enc iq with
  | case1 x hsz hq reduction quality next ih =>
      unfold_let reduction quality next at ih
      simp only [dite_eq_ite] at ih
      have hsz' : x.sizeBytes > cfg'.MAX_SIZE_KB * 1024 := hMAX ▸ hsz
      have hq' : x.quality > cfg'.MIN_QUALITY := hMIN ▸ hq
      conv_lhs => rw [downPhase]
      conv_rhs => rw [downPhase]
      rw [dif_pos hsz, dif_pos hsz', dif_pos hq, dif_pos hq']
      dsimp only
      rw [hMAX, hMIN] at ih ⊢
      rw [ih]
  | case2 x hsz hnq hr =>
      have hsz' : x.sizeBytes > cfg'.MAX_SIZE_KB * 1024 := hMAX ▸ hsz
      have hnq' : ¬x.quality > cfg'.MIN_QUALITY := hMIN ▸ hnq
      conv_lhs => rw [downPhase]
      conv_rhs => rw [downPhase]
      rw [dif_pos hsz, dif_pos hsz', dif_neg hnq, dif_neg hnq', dif_pos hr, dif_pos hr]
  | case3 x hsz hnq hnr new_img next ih =>
      unfold_let new_img next at ih
      have hsz' : x.sizeBytes > cfg'.MAX_SIZE_KB * 1024 := hMAX ▸ hsz
      have hnq' : ¬x.quality > cfg'.MIN_QUALITY := hMIN ▸ hnq
      conv_lhs => rw [downPhase]
      conv_rhs => rw [downPhase]
      rw [dif_pos hsz, dif_pos hsz', dif_neg hnq, dif_neg hnq', dif_neg hnr, dif_neg hnr]
      dsimp only
      rw [ih]
  | case4 x hns =>
      have hns' : ¬x.sizeBytes > cfg'.MAX_SIZE_KB * 1024 := hMAX ▸ hns
      conv_lhs => rw [downPhase]
      conv_rhs => rw [downPhase]
      rw [dif_neg hns, dif_neg hns']

theorem upPhase_congr (cfg cfg' : Config) (enc : EncFn)
    (hTMIN : cfg.TARGET_MIN_SIZE_KB = cfg'.TARGET_MIN_SIZE_KB)
    (hMAX : cfg.MAX_SIZE_KB = cfg'.MAX_SIZE_KB) :
    ∀ s : OptState, upPhase cfg enc s = upPhase cfg' enc s := by
  intro s
  induction s using upPhase.induct cfg enc with
  | case1 x hw q1 quality new_size hov =>
      unfold_let q1 quality new_size at hov
      simp only [dite_eq_ite] at hov
      have hw' : x.sizeBytes < cfg'.TARGET_MIN_SIZE_KB * 1024 ∧ x.quality < 98 := hTMIN ▸ hw
      have hov' : enc x.img (if 98 < x.quality + 5 then 98 else x.quality + 5) > cfg'.MAX_SIZE_KB * 1024 :=
        hMAX ▸ hov
      conv_lhs => rw [upPhase]
      conv_rhs => rw [upPhase]
      rw [dif_pos hw, dif_pos hw']
      dsimp only
      rw [if_pos hov, if_pos hov']
  | case2 x hw q1 quality new_size hov ih =>
      unfold_let q1 quality new_size at hov ih
      simp only [dite_eq_ite] at hov ih
      have hw' : x.sizeBytes < cfg'.TARGET_MIN_SIZE_KB * 1024 ∧ x.quality < 98 := hTMIN ▸ hw
      have hov' : ¬enc x.img (if 98 < x.quality + 5 then 98 else x.quality + 5) > cfg'.MAX_SIZE_KB * 1024 :=
        hMAX ▸ hov
      conv_lhs => rw [upPhase]
      conv_rhs => rw [upPhase]
      rw [dif_pos hw, dif_pos hw']
      dsimp only
      rw [if_neg hov, if_neg hov']
      rw [ih]
  | case3 x hw =>
      have hw' : ¬(x.sizeBytes < cfg'.TARGET_MIN_SIZE_KB * 1024 ∧ x.quality < 98) := hTMIN ▸ hw
      conv_lhs => rw [upPhase]
      conv_rhs => rw [upPhase]
      rw [dif_neg hw, dif_neg hw']

theorem optimize_congr (cfg cfg' : Config) (enc : Enc) (img : Img) (fmt : Format) (iq : Nat)
    (hTMIN : cfg.TARGET_MIN_SIZE_KB = cfg'.TARGET_MIN_SIZE_KB)
    (hMAX : cfg.MAX_SIZE_KB = cfg'.MAX_SIZE_KB)
    (hMIN : cfg.MIN_QUALITY = cfg'.MIN_QUALITY) :
    optimize_to_target_size cfg enc img fmt iq = optimize_to_target_size cfg' enc img fmt iq := by
  simp only [optimize_to_target_size]
  rw [downPhase_congr cfg cfg' (enc fmt) iq hMAX hMIN]
  rw [hTMIN]
  rw [upPhase_congr cfg cfg' (enc fmt) hTMIN hMAX]

namespace Batch

theorem optimize_image_skipped_iff (cfg : Config) (d : Int) (fs : FS) (enc : Enc)
    (file : ImageFile) :
    (optimize_image cfg d fs enc file).status = JobStatus.skipped ↔
      (fs file.stem Format.WEBP = true ∧ fs file.stem Format.AVIF = true) := by
  unfold optimize_image
  by_cases hc : (fs file.stem Format.WEBP && fs file.stem Format.AVIF) = true
  · rw [if_pos hc]
    simp only [Bool.and_eq_true] at hc
    simpa using hc
  · rw [if_neg hc]
    simp only [Bool.and_eq_true] at hc
    constructor
    · intro hst
      exfalso
      revert hst
      split <;> simp
    · intro hboth
      exact absurd hboth hc

theorem optimize_image_skipped_eq (cfg : Config) (d : Int) (fs : FS) (enc : Enc)
    (file : ImageFile)
    (h : (fs file.stem Format.WEBP && fs file.stem Format.AVIF) = true) :
    optimize_image cfg d fs enc file =
      { status := JobStatus.skipped, webp := none, avif := none } := by
  unfold optimize_image
  rw [if_pos h]

theorem optimize_image_invalid_eq (cfg : Config) (d : Int) (fs : FS) (enc : Enc)
    (file : ImageFile)
    (hd1 : d ≠ 1) (hd2 : d ≠ 2) (hd3 : d ≠ 3)
    (h : ¬(fs file.stem Format.WEBP && fs file.stem Format.AVIF) = true) :
    optimize_image cfg d fs enc file =
      { status := JobStatus.error, webp := none, avif := none } := by
  unfold optimize_image
  rw [if_neg h]
  split
  · exact absurd rfl hd1
  · exact absurd rfl hd2
  · exact absurd rfl hd3
  · rfl

theorem optimize_image_d3_success (cfg : Config) (fs : FS) (enc : Enc) (file : ImageFile)
    (h : ¬(fs file.stem Format.WEBP && fs file.stem Format.AVIF) = true) :
    (optimize_image cfg 3 fs enc file).status = JobStatus.success := by
  unfold optimize_image
  rw [if_neg h]
  rfl

theorem write_outputs_mono (d : Int) (b : Bool) (fs : FS) (stem s : String) (f : Format)
    (h : fs s f = true) : write_outputs d b fs stem s f = true := by
  unfold write_outputs
  split
  · exact h
  · simp [h]

theorem write_outputs_skipped (d : Int) (fs : FS) (stem : String) :
    write_outputs d true fs stem = fs := by
  unfold write_outputs
  rfl

theorem write_outputs_d3_self (fs : FS) (stem : String) :
    write_outputs 3 false fs stem stem Format.WEBP = true ∧
    write_outputs 3 false fs stem stem Format.AVIF = true := by
  unfold write_outputs
  simp

theorem write_outputs_invalid (d : Int) (b : Bool) (fs : FS) (stem : String)
    (hd1 : d ≠ 1) (hd2 : d ≠ 2) (hd3 : d ≠ 3) (s : String) (f : Format) :
    write_outputs d b fs stem s f = fs s f := by
  unfold write_outputs
  split
  · rfl
  · simp [hd1, hd2, hd3]

@[simp] theorem jobStep_fs (d : Int) (r : JobOutcome) (stem : String) (st : BatchState) :
    (jobStep d r stem st).fs = write_outputs d (r.status == JobStatus.skipped) st.fs stem := rfl

theorem jobStep_skipped (d : Int) (stem : String) (st : BatchState) :
    jobStep d { status := JobStatus.skipped, webp := none, avif := none } stem st =
      { successful := st.successful
        skipped := st.skipped + 1
        failed := st.failed
        details := st.details ++ [{ status := JobStatus.skipped, webp := none, avif := none }]
        fs := st.fs } := rfl

theorem jobStep_error (d : Int) (stem : String) (st : BatchState) :
    jobStep d { status := JobStatus.error, webp := none, avif := none } stem st =
      { successful := st.successful
        skipped := st.skipped
        failed := st.failed + 1
        details := st.details ++ [{ status := JobStatus.error, webp := none, avif := none }]
        fs := write_outputs d false st.fs stem } := rfl

theorem runJobs_fs_mono (cfg : Config) (d : Int) (enc : Enc) :
    ∀ (files : List ImageFile) (st : BatchState) (s : String) (f : Format),
      st.fs s f = true → (runJobs cfg d enc files st).fs s f = true := by
  intro files
  induction files with
  | nil =>
      intro st s f h
      exact h
  | cons file rest ih =>
      intro st s f h
      rw [runJobs]
      apply ih
      rw [jobStep_fs]
      exact write_outputs_mono _ _ _ _ _ _ h

theorem runJobs_d3_writes (cfg : Config) (enc : Enc) :
    ∀ (files : List ImageFile) (st : BatchState) (file : ImageFile), file ∈ files →
      (runJobs cfg 3 enc files st).fs file.stem Format.WEBP = true ∧
      (runJobs cfg 3 enc files st).fs file.stem Format.AVIF = true := by
  intro files
  induction files with
  | nil =>
      intro st file hmem
      exact absurd hmem (List.not_mem_nil _)
  | cons head rest ih =>
      intro st file hmem
      rw [runJobs]
      rcases List.mem_cons.mp hmem with rfl | htail
      · -- the head job leaves both outputs of its own stem behind
        by_cases hc : (st.fs file.stem Format.WEBP && st.fs file.stem Format.AVIF) = true
        · rw [optimize_image_skipped_eq cfg 3 st.fs enc file hc, jobStep_skipped]
          simp only [Bool.and_eq_true] at hc
          constructor
          · exact runJobs_fs_mono cfg 3 enc rest _ file.stem Format.WEBP hc.1
          · exact runJobs_fs_mono cfg 3 enc rest _ file.stem Format.AVIF hc.2
        · have hst := optimize_image_d3_success cfg st.fs enc file hc
          have hbeq :
              ((optimize_image cfg 3 st.fs enc file).status == JobStatus.skipped) = false := by
            rw [hst]
            rfl
          have hws := write_outputs_d3_self st.fs file.stem
          constructor
          · apply runJobs_fs_mono
            rw [jobStep_fs, hbeq]
            exact hws.1
          · apply runJobs_fs_mono
            rw [jobStep_fs, hbeq]
            exact hws.2
      · exact ih _ file htail

theorem runJobs_all_present (cfg : Config) (d : Int) (enc : Enc) :
    ∀ (files : List ImageFile) (st : BatchState),
      (∀ file ∈ files,
        st.fs file.stem Format.WEBP = true ∧ st.fs file.stem Format.AVIF = true) →
      (runJobs cfg d enc files st).skipped = st.skipped + files.length ∧
      (runJobs cfg d enc files st).successful = st.successful ∧
      (runJobs cfg d enc files st).failed = st.failed := by
  intro files
  induction files with
  | nil =>
      intro st h
      rw [runJobs]
      simp
  | cons head rest ih =>
      intro st h
      have hhead := h head (List.mem_cons_self _ _)
      have hc : (st.fs head.stem Format.WEBP && st.fs head.stem Format.AVIF) = true := by
        simp [hhead.1, hhead.2]
      rw [runJobs, optimize_image_skipped_eq cfg d st.fs enc head hc, jobStep_skipped]
      obtain ⟨h1, h2, h3⟩ := ih
        { successful := st.successful
          skipped := st.skipped + 1
          failed := st.failed
          details := st.details ++ [{ status := JobStatus.skipped, webp := none, avif := none }]
          fs := st.fs }
        (fun f hf => h f (List.mem_cons_of_mem _ hf))
      rw [h1, h2, h3]
      simp only [List.length_cons]
      exact ⟨by omega, by trivial, by trivial⟩

theorem runJobs_invalid (cfg : Config) (d : Int) (enc : Enc)
    (hd1 : d ≠ 1) (hd2 : d ≠ 2) (hd3 : d ≠ 3) :
    ∀ (files : List ImageFile) (st : BatchState),
      (∀ file ∈ files,
        ¬(st.fs file.stem Format.WEBP = true ∧ st.fs file.stem Format.AVIF = true)) →
      (runJobs cfg d enc files st).failed = st.failed + files.length ∧
      (runJobs cfg d enc files st).successful = st.successful ∧
      (runJobs cfg d enc files st).skipped = st.skipped ∧
      (runJobs cfg d enc files st).details.length = st.details.length + files.length := by
  intro files
  induction files with
  | nil =>
      intro st h
      rw [runJobs]
      simp
  | cons head rest ih =>
      intro st h
      have hhead := h head (List.mem_cons_self _ _)
      have hc : ¬(st.fs head.stem Format.WEBP && st.fs head.stem Format.AVIF) = true := by
        simpa [Bool.and_eq_true] using hhead
      rw [runJobs, optimize_image_invalid_eq cfg d st.fs enc head hd1 hd2 hd3 hc, jobStep_error]
      obtain ⟨h1, h2, h3, h4⟩ := ih
        { successful := st.successful
          skipped := st.skipped
          failed := st.failed + 1
          details := st.details ++ [{ status := JobStatus.error, webp := none, avif := none }]
          fs := write_outputs d false st.fs head.stem }
        (fun f hf => by
          dsimp only
          rw [write_outputs_invalid d false st.fs head.stem hd1 hd2 hd3,
              write_outputs_invalid d false st.fs head.stem hd1 hd2 hd3]
          exact h f (List.mem_cons_of_mem _ hf))
      rw [h1, h2, h3, h4]
      simp only [List.length_cons, List.length_append, List.length_nil]
      exact ⟨by omega, by trivial, by trivial, by omega⟩

end Batch

/-- C1 counterexample: with the WEBP-only selection (decision 1), after one
batch run over a fresh directory the output file of the only requested format
(WEBP) exists — `allRequestedExist` holds — yet a second run does not skip
the job: it reprocesses it as a success, so the second run has
`skipped = 0 ≠ total` and `success = 1 ≠ 0`, refuting both the claimed
skip-iff-all-requested-exist equivalence and the claimed idempotence for
every selection. -/
theorem C1_counterexample :
    Batch.allRequestedExist 1
        (Batch.process_batch defaultConfig 1 constEnc [fileA] emptyFS).fs fileA.stem = true
    ∧ (Batch.optimize_image defaultConfig 1
        (Batch.process_batch defaultConfig 1 constEnc [fileA] emptyFS).fs constEnc fileA).status
        ≠ JobStatus.skipped
    ∧ (Batch.process_batch defaultConfig 1 constEnc [fileA]
        (Batch.process_batch defaultConfig 1 constEnc [fileA] emptyFS).fs).skipped = 0
    ∧ (Batch.process_batch defaultConfig 1 constEnc [fileA]
        (Batch.process_batch defaultConfig 1 constEnc [fileA] emptyFS).fs).successful = 1 := by
  decide

/-- C1 amended: a job returns `Skipped` if and only if the WEBP *and* the
AVIF output files both exist, regardless of the requested selection; a
skipped job invokes the encoder zero times; and running the batch a second
time over an unchanged directory yields `skipped = total` and `success = 0`
when **both** formats are requested (decision 3) — not for every selection. -/
theorem C1_skip_iff_both_outputs (d : Int) (fs : FS) (enc enc' : Enc) (file : ImageFile)
    (files : List ImageFile) (fs0 : FS) :
    ((Batch.optimize_image defaultConfig d fs enc file).status = JobStatus.skipped ↔
      (fs file.stem Format.WEBP = true ∧ fs file.stem Format.AVIF = true))
    ∧ ((Batch.optimize_image defaultConfig d fs enc file).status = JobStatus.skipped →
        encodeCount (Batch.optimize_image defaultConfig d fs enc file) = 0)
    ∧ (Batch.process_batch defaultConfig 3 enc' files
        (Batch.process_batch defaultConfig 3 enc' files fs0).fs).skipped = files.length
    ∧ (Batch.process_batch defaultConfig 3 enc' files
        (Batch.process_batch defaultConfig 3 enc' files fs0).fs).successful = 0 := by
  refine ⟨Batch.optimize_image_skipped_iff defaultConfig d fs enc file, ?_, ?_, ?_⟩
  · intro h
    have hboth := (Batch.optimize_image_skipped_iff defaultConfig d fs enc file).mp h
    have hc : (fs file.stem Format.WEBP && fs file.stem Format.AVIF) = true := by
      simp [hboth.1, hboth.2]
    rw [Batch.optimize_image_skipped_eq defaultConfig d fs enc file hc]
    rfl
  all_goals
    have hall : ∀ f ∈ files,
        (Batch.process_batch defaultConfig 3 enc' files fs0).fs f.stem Format.WEBP = true ∧
        (Batch.process_batch defaultConfig 3 enc' files fs0).fs f.stem Format.AVIF = true :=
      fun f hf => Batch.runJobs_d3_writes defaultConfig enc' files _ f hf
  · have h := Batch.runJobs_all_present defaultConfig 3 enc' files
      { successful := 0, skipped := 0, failed := 0, details := []
        fs := (Batch.process_batch defaultConfig 3 enc' files fs0).fs } hall
    simpa [Batch.process_batch] using h.1
  · have h := Batch.runJobs_all_present defaultConfig 3 enc' files
      { successful := 0, skipped := 0, failed := 0, details := []
        fs := (Batch.process_batch defaultConfig 3 enc' files fs0).fs } hall
    simpa [Batch.process_batch] using h.2.1

/-- C2 counterexample: with both formats requested (decision 3) and 4
requested workers, `process_batch` uses `get_optimal_workers("WEBP") = 4`
workers, while the claimed `min(requestedWorkers, halvedCap)` would be 2 —
the cap is not halved when AVIF is among the formats unless the selection is
AVIF-only. -/
theorem C2_counterexample :
    Batch.process_batch_workers 3 4 = 4 ∧ Batch.spec_effective_workers 3 4 = 2 := by
  decide

/-- C2 amended: the effective worker count ignores the requested worker
override entirely; it equals `max 1 (min 2 (MAX_WORKERS / 2)) = 2` exactly
when the selection is AVIF-only (decision 2) and `MAX_WORKERS = 4` for every
other decision, including the both-formats selection. -/
theorem C2_workers_ignore_override (d : Int) (w w' : Nat) (hd : d ≠ 2) :
    Batch.process_batch_workers d w = Batch.process_batch_workers d w'
    ∧ Batch.process_batch_workers 2 w = max 1 (min 2 (MAX_WORKERS / 2))
    ∧ Batch.process_batch_workers d w = MAX_WORKERS := by
  refine ⟨rfl, rfl, ?_⟩
  unfold Batch.process_batch_workers
  rw [if_neg hd]
  rfl

/-- Witness for C2: the amended statement applied at decision 5 and worker
overrides 1 and 9. -/
theorem C2_workers_ignore_override_witness :
    ((5 : Int) ≠ 2)
    ∧ Batch.process_batch_workers 5 1 = Batch.process_batch_workers 5 9
    ∧ Batch.process_batch_workers 2 1 = max 1 (min 2 (MAX_WORKERS / 2))
    ∧ Batch.process_batch_workers 5 1 = MAX_WORKERS :=
  ⟨by decide, C2_workers_ignore_override 5 1 9 (by decide)⟩

/-- Witness for C1: the amended statement applied at decision 1, an output
directory where both files exist, one concrete file, and a fresh-directory
double run with decision 3. -/
theorem C1_skip_iff_both_outputs_witness :
    (((Batch.optimize_image defaultConfig 1 fullFS constEnc fileA).status = JobStatus.skipped ↔
      (fullFS fileA.stem Format.WEBP = true ∧ fullFS fileA.stem Format.AVIF = true))
    ∧ ((Batch.optimize_image defaultConfig 1 fullFS constEnc fileA).status = JobStatus.skipped →
        encodeCount (Batch.optimize_image defaultConfig 1 fullFS constEnc fileA) = 0)
    ∧ (Batch.process_batch defaultConfig 3 constEnc [fileA]
        (Batch.process_batch defaultConfig 3 constEnc [fileA] emptyFS).fs).skipped = [fileA].length
    ∧ (Batch.process_batch defaultConfig 3 constEnc [fileA]
        (Batch.process_batch defaultConfig 3 constEnc [fileA] emptyFS).fs).successful = 0) :=
  C1_skip_iff_both_outputs 1 fullFS constEnc constEnc fileA [fileA] emptyFS

/-- C3: in every run of the optimizer with an initial quality at or above
MIN_QUALITY = 30, every resize event in the log happens with the current
quality equal to 30 and with the most recent encode attempt before it at
quality 30 — quality reduction is exhausted before the first resize, and
after each resize (which resets quality to the initial quality) quality is
driven to the floor again before any further resize. -/
theorem C3_resize_only_after_quality_floor (enc : Enc) (img : Img) (fmt : Format) (iq : Nat)
    (h : 30 ≤ iq) :
    resizesAfterFloor 30 iq (optimize_to_target_size defaultConfig enc img fmt iq).log = true := by
  simp only [optimize_to_target_size]
  rw [resizesAfterFloor_encode]
  have key := downPhase_floor defaultConfig (enc fmt) iq h
    { img := flattenFor fmt img
      quality := iq
      sizeBytes := enc fmt (flattenFor fmt img) iq
      resizeNeeded := false
      resizeCount := 0 } h
  apply key
  split
  · exact upPhase_floor defaultConfig (enc fmt) _ _ _
  · simp

/-- Witness for C3 at initial quality 80 with an encoder that stays at
300 KB, forcing the full quality descent and all five resizes. -/
theorem C3_resize_only_after_quality_floor_witness :
    30 ≤ 80
    ∧ resizesAfterFloor 30 80
        (optimize_to_target_size defaultConfig bigEnc
          { width := 100, height := 100, mode := Mode.RGB } Format.WEBP 80).log = true :=
  ⟨by decide, C3_resize_only_after_quality_floor bigEnc
    { width := 100, height := 100, mode := Mode.RGB } Format.WEBP 80 (by decide)⟩

/-- C4: for every run with an initial quality in [30, 98], the quality of
every encode attempt in the log (seed encode, downward steps, post-resize
resets, upward steps and the post-overshoot revert encode) lies in [30, 98],
and the final recorded quality lies in [30, 98]. -/
theorem C4_quality_in_range (enc : Enc) (img : Img) (fmt : Format) (iq : Nat)
    (h1 : 30 ≤ iq) (h2 : iq ≤ 98) :
    (∀ (i : Img) (q : Nat),
        Event.encode i q ∈ (optimize_to_target_size defaultConfig enc img fmt iq).log →
          30 ≤ q ∧ q ≤ 98)
    ∧ 30 ≤ (optimize_to_target_size defaultConfig enc img fmt iq).quality
    ∧ (optimize_to_target_size defaultConfig enc img fmt iq).quality ≤ 98 := by
  simp only [optimize_to_target_size]
  obtain ⟨dev, dlo, dhi⟩ :=
    downPhase_qual defaultConfig (enc fmt) iq h1 h2
      { img := flattenFor fmt img
        quality := iq
        sizeBytes := enc fmt (flattenFor fmt img) iq
        resizeNeeded := false
        resizeCount := 0 } h1 h2
  have up :
      (∀ (i : Img) (q : Nat),
          Event.encode i q ∈
            (if (downPhase defaultConfig (enc fmt) iq
                  { img := flattenFor fmt img
                    quality := iq
                    sizeBytes := enc fmt (flattenFor fmt img) iq
                    resizeNeeded := false
                    resizeCount := 0 }).1.sizeBytes < defaultConfig.TARGET_MIN_SIZE_KB * 1024 ∧
                (downPhase defaultConfig (enc fmt) iq
                  { img := flattenFor fmt img
                    quality := iq
                    sizeBytes := enc fmt (flattenFor fmt img) iq
                    resizeNeeded := false
                    resizeCount := 0 }).1.resizeNeeded = false then
              upPhase defaultConfig (enc fmt)
                (downPhase defaultConfig (enc fmt) iq
                  { img := flattenFor fmt img
                    quality := iq
                    sizeBytes := enc fmt (flattenFor fmt img) iq
                    resizeNeeded := false
                    resizeCount := 0 }).1
            else
              ((downPhase defaultConfig (enc fmt) iq
                  { img := flattenFor fmt img
                    quality := iq
                    sizeBytes := enc fmt (flattenFor fmt img) iq
                    resizeNeeded := false
                    resizeCount := 0 }).1, [])).2 →
            30 ≤ q ∧ q ≤ 98)
      ∧ 30 ≤ (if (downPhase defaultConfig (enc fmt) iq
                  { img := flattenFor fmt img
                    quality := iq
                    sizeBytes := enc fmt (flattenFor fmt img) iq
                    resizeNeeded := false
                    resizeCount := 0 }).1.sizeBytes < defaultConfig.TARGET_MIN_SIZE_KB * 1024 ∧
                (downPhase defaultConfig (enc fmt) iq
                  { img := flattenFor fmt img
                    quality := iq
                    sizeBytes := enc fmt (flattenFor fmt img) iq
                    resizeNeeded := false
                    resizeCount := 0 }).1.resizeNeeded = false then
              upPhase defaultConfig (enc fmt)
                (downPhase defaultConfig (enc fmt) iq
                  { img := flattenFor fmt img
                    quality := iq
                    sizeBytes := enc fmt (flattenFor fmt img) iq
                    resizeNeeded := false
                    resizeCount := 0 }).1
            else
              ((downPhase defaultConfig (enc fmt) iq
                  { img := flattenFor fmt img
                    quality := iq
                    sizeBytes := enc fmt (flattenFor fmt img) iq
                    resizeNeeded := false
                    resizeCount := 0 }).1, [])).1.quality
      ∧ (if (downPhase defaultConfig (enc fmt) iq
                  { img := flattenFor fmt img
                    quality := iq
                    sizeBytes := enc fmt (flattenFor fmt img) iq
                    resizeNeeded := false
                    resizeCount := 0 }).1.sizeBytes < defaultConfig.TARGET_MIN_SIZE_KB * 1024 ∧
                (downPhase defaultConfig (enc fmt) iq
                  { img := flattenFor fmt img
                    quality := iq
                    sizeBytes := enc fmt (flattenFor fmt img) iq
                    resizeNeeded := false
                    resizeCount := 0 }).1.resizeNeeded = false then
              upPhase defaultConfig (enc fmt)
                (downPhase defaultConfig (enc fmt) iq
                  { img := flattenFor fmt img
                    quality := iq
                    sizeBytes := enc fmt (flattenFor fmt img) iq
                    resizeNeeded := false
                    resizeCount := 0 }).1
            else
              ((downPhase defaultConfig (enc fmt) iq
                  { img := flattenFor fmt img
                    quality := iq
                    sizeBytes := enc fmt (flattenFor fmt img) iq
                    resizeNeeded := false
                    resizeCount := 0 }).1, [])).1.quality ≤ 98 := by
    split
    · exact upPhase_qual defaultConfig (enc fmt) _ dlo dhi
    · exact ⟨fun i q hmem => absurd hmem (List.not_mem_nil _), dlo, dhi⟩
  obtain ⟨uev, ulo, uhi⟩ := up
  refine ⟨?_, ulo, uhi⟩
  intro i q hmem
  simp only [List.mem_cons, List.mem_append] at hmem
  rcases hmem with hs | hd | hu
  · rcases Event.encode.inj hs with ⟨-, rfl⟩
    exact ⟨h1, h2⟩
  · exact dev i q hd
  · exact uev i q hu

/-- Witness for C4 at initial quality 80 with a 300 KB encoder. -/
theorem C4_quality_in_range_witness :
    (30 ≤ 80 ∧ 80 ≤ 98)
    ∧ ((∀ (i : Img) (q : Nat),
          Event.encode i q ∈ (optimize_to_target_size defaultConfig bigEnc
            { width := 100, height := 100, mode := Mode.RGB } Format.AVIF 80).log →
            30 ≤ q ∧ q ≤ 98)
      ∧ 30 ≤ (optimize_to_target_size defaultConfig bigEnc
          { width := 100, height := 100, mode := Mode.RGB } Format.AVIF 80).quality
      ∧ (optimize_to_target_size defaultConfig bigEnc
          { width := 100, height := 100, mode := Mode.RGB } Format.AVIF 80).quality ≤ 98) :=
  ⟨⟨by decide, by decide⟩,
   C4_quality_in_range bigEnc { width := 100, height := 100, mode := Mode.RGB } Format.AVIF 80
     (by decide) (by decide)⟩

/-- C5 counterexample: for a 600 KB original, the single-image variant's
AVIF run starts (seed-encodes) at quality 70 = 80 - 10, the size-only
adjustment it computes once for both formats, whereas the claimed
format-dependent policy prescribes 60 = 80 - 20 for AVIF — the single-image
variant does not apply the AVIF-specific reduction. -/
theorem C5_counterexample :
    (Single.optimize_image defaultConfig constEnc file600).avif.run.log.head? =
      some (Event.encode file600.img 70)
    ∧ spec_initial_quality Format.AVIF file600.sizeBytes = 60 := by
  constructor
  · rfl
  · decide

/-- C5 amended: the batch variant's `get_initial_quality` agrees exactly
with the spec's format-dependent policy (AVIF: 80 - 20 above 500 KB else
80 - 15, clamped to 30; otherwise 80 - 10 above 500 KB else 80), but the
single-image variant seeds **both** the WEBP and the AVIF encode with the
same size-only value `initial_quality_of` (80, or 80 - 10 above 500 KB),
ignoring the format. -/
theorem C5_initial_quality_policy (fmt : Format) (n : Nat) (enc : Enc) (file : ImageFile) :
    Batch.get_initial_quality defaultConfig fmt n = spec_initial_quality fmt n
    ∧ (Single.optimize_image defaultConfig enc file).webp.run.log.head? =
        some (Event.encode (flattenFor Format.WEBP file.img)
          (Single.initial_quality_of defaultConfig file.sizeBytes))
    ∧ (Single.optimize_image defaultConfig enc file).avif.run.log.head? =
        some (Event.encode (flattenFor Format.AVIF file.img)
          (Single.initial_quality_of defaultConfig file.sizeBytes)) := by
  refine ⟨?_, rfl, rfl⟩
  unfold Batch.get_initial_quality spec_initial_quality
  cases fmt <;> by_cases h : n > 500 * 1024 <;> simp [h, defaultConfig]

/-- C6 counterexample: from initial quality 80 with an encoder that stays at
20 KB below quality 98 and jumps to 150 KB at 98, the upward phase climbs
80 → 85 → 90 → 95, then takes the clamped step 95 → 98 which overshoots
MAX_SIZE_KB, and reverts to 98 - 5 = 93 — not to the previous quality 95 —
so the claimed "revert to exactly the previous quality, including the
clamped case" is false. -/
theorem C6_counterexample :
    (optimize_to_target_size defaultConfig upEnc { width := 100, height := 100, mode := Mode.RGB }
        Format.WEBP 80).log =
      [Event.encode { width := 100, height := 100, mode := Mode.RGB } 80,
       Event.encode { width := 100, height := 100, mode := Mode.RGB } 85,
       Event.encode { width := 100, height := 100, mode := Mode.RGB } 90,
       Event.encode { width := 100, height := 100, mode := Mode.RGB } 95,
       Event.encode { width := 100, height := 100, mode := Mode.RGB } 98,
       Event.encode { width := 100, height := 100, mode := Mode.RGB } 93]
    ∧ (optimize_to_target_size defaultConfig upEnc
        { width := 100, height := 100, mode := Mode.RGB } Format.WEBP 80).quality = 93 := by
  constructor <;>
    simp [optimize_to_target_size, downPhase, upPhase, defaultConfig, upEnc, flattenFor]

/-- C6 amended: in the upward phase, when the re-encode at the stepped
quality `min(q + 5, 98)` exceeds MAX_SIZE_KB, the optimizer sets the quality
to that stepped value minus 5 and re-encodes there, then stops; this equals
the previous quality exactly when the step was not clamped (q + 5 ≤ 98), and
lands at 93 instead of the previous quality when the step was clamped at the
98 cap. -/
theorem C6_upward_revert (cfg : Config) (enc : EncFn) (s : OptState)
    (h1 : s.sizeBytes < cfg.TARGET_MIN_SIZE_KB * 1024) (h2 : s.quality < 98)
    (hov : enc s.img (if s.quality + 5 > 98 then 98 else s.quality + 5) > cfg.MAX_SIZE_KB * 1024) :
    (upPhase cfg enc s).1.quality = (if s.quality + 5 > 98 then 98 else s.quality + 5) - 5
    ∧ (s.quality + 5 ≤ 98 → (upPhase cfg enc s).1.quality = s.quality) := by
  rw [upPhase, dif_pos ⟨h1, h2⟩]
  dsimp only
  rw [if_pos hov]
  constructor
  · rfl
  · intro hle
    dsimp only
    rw [if_neg (by omega)]
    omega

/-- Witness for C6: the amended revert statement applied at the state with
quality 95 and the overshooting encoder, where the clamped step reverts to
93. -/
theorem C6_upward_revert_witness :
    (s95.sizeBytes < defaultConfig.TARGET_MIN_SIZE_KB * 1024
      ∧ s95.quality < 98
      ∧ upEncFn s95.img (if s95.quality + 5 > 98 then 98 else s95.quality + 5) >
          defaultConfig.MAX_SIZE_KB * 1024)
    ∧ ((upPhase defaultConfig upEncFn s95).1.quality =
        (if s95.quality + 5 > 98 then 98 else s95.quality + 5) - 5
      ∧ (s95.quality + 5 ≤ 98 → (upPhase defaultConfig upEncFn s95).1.quality = s95.quality)) :=
  ⟨⟨by decide, by decide, by decide⟩,
   C6_upward_revert defaultConfig upEncFn s95 (by decide) (by decide) (by decide)⟩

/-- C7: in every optimizer run the log contains at most 5 resize events, and
the resize chain is well-formed: every encode uses the current working image,
every resize goes from the current working image to exactly both dimensions
× 0.8 with integer truncation (never recomputed from the original), and
every resize is immediately followed by an encode of the new image at the
initial quality (the post-resize quality reset). -/
theorem C7_resize_bound_and_chain (enc : Enc) (img : Img) (fmt : Format) (iq : Nat) :
    countResizes (optimize_to_target_size defaultConfig enc img fmt iq).log ≤ max_resize_attempts
    ∧ resizeChainOk iq (flattenFor fmt img)
        (optimize_to_target_size defaultConfig enc img fmt iq).log = true := by
  simp only [optimize_to_target_size]
  constructor
  · have hd := downPhase_countResizes defaultConfig (enc fmt) iq
      { img := flattenFor fmt img
        quality := iq
        sizeBytes := enc fmt (flattenFor fmt img) iq
        resizeNeeded := false
        resizeCount := 0 }
    simp only [max_resize_attempts] at hd ⊢
    split
    · have hu0 := upPhase_countResizes defaultConfig (enc fmt)
        (downPhase defaultConfig (enc fmt) iq
          { img := flattenFor fmt img
            quality := iq
            sizeBytes := enc fmt (flattenFor fmt img) iq
            resizeNeeded := false
            resizeCount := 0 }).1
      simp [hu0]
      omega
    · simp
      omega
  · rw [resizeChainOk_encode]
    have key := downPhase_chainOk defaultConfig (enc fmt) iq
      { img := flattenFor fmt img
        quality := iq
        sizeBytes := enc fmt (flattenFor fmt img) iq
        resizeNeeded := false
        resizeCount := 0 }
    have hdec : decide (flattenFor fmt img = flattenFor fmt img) = true := by simp
    rw [hdec, Bool.true_and]
    apply key
    split
    · exact upPhase_chainOk defaultConfig (enc fmt) iq _
    · simp

/-- C8 counterexample: with the unrecognized selection 5 and one image, the
batch does not abort before jobs: the job runs and produces the per-job
`"Invalid format decision"` error result, the batch counts it failed, and
only the final exit code is non-zero. -/
theorem C8_counterexample :
    (Batch.batch_main defaultConfig 5 constEnc [fileA] emptyFS).1 = 1
    ∧ (Batch.batch_main defaultConfig 5 constEnc [fileA] emptyFS).2.isSome = true
    ∧ (Batch.process_batch defaultConfig 5 constEnc [fileA] emptyFS).details =
        [{ status := JobStatus.error, webp := none, avif := none }]
    ∧ (Batch.process_batch defaultConfig 5 constEnc [fileA] emptyFS).failed = 1 := by
  decide

/-- C8 amended: an unrecognized integer selection is not fatal at startup.
For every such selection and non-empty image list (with no pre-existing
outputs), every job runs and fails individually with the invalid-selection
error result of the `case _` branch, the batch records one failed result per
job, and the run exits non-zero only at the end. -/
theorem C8_invalid_decision_runs_jobs (d : Int) (enc : Enc) (files : List ImageFile) (fs0 : FS)
    (hd1 : d ≠ 1) (hd2 : d ≠ 2) (hd3 : d ≠ 3) (hne : files ≠ [])
    (hfs : ∀ file ∈ files,
      ¬(fs0 file.stem Format.WEBP = true ∧ fs0 file.stem Format.AVIF = true)) :
    (Batch.batch_main defaultConfig d enc files fs0).1 = 1
    ∧ (Batch.process_batch defaultConfig d enc files fs0).failed = files.length
    ∧ (Batch.process_batch defaultConfig d enc files fs0).successful = 0
    ∧ (Batch.process_batch defaultConfig d enc files fs0).skipped = 0
    ∧ (Batch.process_batch defaultConfig d enc files fs0).details.length = files.length := by
  have hrun := Batch.runJobs_invalid defaultConfig d enc hd1 hd2 hd3 files
    { successful := 0, skipped := 0, failed := 0, details := [], fs := fs0 } hfs
  obtain ⟨h1, h2, h3, h4⟩ := hrun
  have hfail : (Batch.process_batch defaultConfig d enc files fs0).failed = files.length := by
    simpa [Batch.process_batch] using h1
  have hb : files.isEmpty = false := by
    cases files with
    | nil => exact absurd rfl hne
    | cons a t => rfl
  refine ⟨?_, hfail, by simpa [Batch.process_batch] using h2,
    by simpa [Batch.process_batch] using h3, by simpa [Batch.process_batch] using h4⟩
  rw [Batch.batch_main]
  rw [hb]
  have hpos : 0 < files.length := List.length_pos.mpr hne
  simp only [Bool.false_eq_true, if_false]
  rw [if_neg (by omega : ¬(Batch.process_batch defaultConfig d enc files fs0).failed = 0)]

/-- Witness for C8: the amended statement applied at selection 5 over a
single file and an empty output directory. -/
theorem C8_invalid_decision_runs_jobs_witness :
    ((5 : Int) ≠ 1 ∧ (5 : Int) ≠ 2 ∧ (5 : Int) ≠ 3 ∧ [fileA] ≠ []
      ∧ (∀ file ∈ [fileA],
          ¬(emptyFS file.stem Format.WEBP = true ∧ emptyFS file.stem Format.AVIF = true)))
    ∧ ((Batch.batch_main defaultConfig 5 constEnc [fileA] emptyFS).1 = 1
      ∧ (Batch.process_batch defaultConfig 5 constEnc [fileA] emptyFS).failed = [fileA].length
      ∧ (Batch.process_batch defaultConfig 5 constEnc [fileA] emptyFS).successful = 0
      ∧ (Batch.process_batch defaultConfig 5 constEnc [fileA] emptyFS).skipped = 0
      ∧ (Batch.process_batch defaultConfig 5 constEnc [fileA] emptyFS).details.length =
          [fileA].length) :=
  ⟨⟨by decide, by decide, by decide, by decide, by decide⟩,
   C8_invalid_decision_runs_jobs 5 constEnc [fileA] emptyFS
     (by decide) (by decide) (by decide) (by decide) (by decide)⟩

/-- C9 (code bug): in both variants `optimize_image` extracts the EXIF
mapping via `preserve_metadata` and then never uses it — the returned result
is identical for any two EXIF values, so the mapping is neither attached to
the returned result (contradicting the source's own "Save EXIF metadata"
comment and "Metadata Preservation" docstring, which the claim reflects)
nor branched on. -/
theorem C9_exif_discarded (cfg : Config) (d : Int) (fs : FS) (enc : Enc) (file : ImageFile)
    (e1 e2 : Option ExifData) :
    Batch.optimize_image cfg d fs enc { file with exif := e1 } =
      Batch.optimize_image cfg d fs enc { file with exif := e2 }
    ∧ Single.optimize_image cfg enc { file with exif := e1 } =
        Single.optimize_image cfg enc { file with exif := e2 } :=
  ⟨rfl, rfl⟩

/-- C10: the optimizer's result (final size, quality, resize flag,
dimensions and even the full event log) is independent of the value of
TARGET_MAX_SIZE_KB: two runs whose configurations differ only in that
constant are identical, because no phase of `optimize_to_target_size` ever
reads it. -/
theorem C10_target_max_independent (cfg : Config) (v1 v2 : Nat) (enc : Enc) (img : Img)
    (fmt : Format) (iq : Nat) :
    optimize_to_target_size { cfg with TARGET_MAX_SIZE_KB := v1 } enc img fmt iq =
      optimize_to_target_size { cfg with TARGET_MAX_SIZE_KB := v2 } enc img fmt iq :=
  optimize_congr _ _ enc img fmt iq rfl rfl rfl
